import Mathlib

/-!
Verification development for the EstoqueMaster inventory ledger engine.

The TypeScript source is shallowly embedded: JS numbers become `ℚ`
(stock quantities and prices are arbitrary decimals entered through
`parseFloat`), ISO timestamp strings and free-text notes become `String`,
and `crypto.randomUUID()` identifiers are modelled as `Nat` values drawn
from an explicitly threaded fresh-id counter (only freshness matters to
the engine).  Each embedded function is a direct transcription of the
cited source lines; the React state plumbing around it (``useState``
setters, modal flags) is dropped and the state that a handler reads and
writes is passed and returned explicitly.
-/

/-- One element of a product's cost evolution log
(`CostHistoryEntry` in `types.ts`): a price and the ISO date string of
the mutation that recorded it. -/
structure CostHistoryEntry where
  price : ℚ
  date : String
deriving DecidableEq, Repr

/-- Catalog entry (`Product` in `src/unnamed/part_000` / `types.ts`).
`previousCostPrice` is optional in the source (`previousCostPrice?:`),
hence `Option ℚ` here; `costHistory` may be `undefined` in the source
but every reader normalises it with `|| []`, so it is embedded as a
plain list with `[]` for the absent case.  `image` and `previousStock`
exist in the revisions that use them (`part_001` / `part_002`) and are
carried unchanged by the others through the `{ ...p }` spread. -/
structure Product where
  id : Nat
  code : String
  name : String
  category : String
  unit : String
  safetyStock : ℚ
  minStock : ℚ
  monthlyConsumption : ℚ
  currentStock : ℚ
  previousStock : ℚ
  costPrice : ℚ
  salePrice : ℚ
  previousCostPrice : Option ℚ
  costHistory : List CostHistoryEntry
  image : String
deriving DecidableEq, Repr

/-- Movement type (`TransactionType` enum: `ENTRADA`, `SAÍDA`, `AJUSTE`). -/
inductive TxType where
  | entrada
  | saida
  | ajuste
deriving DecidableEq, Repr

/-- Ledger record (`Transaction` in `types.ts`).  Every committing code
path assigns `unitCost`, so it is embedded non-optionally.  The
`userName` field of the `src/App.tsx` revision is presentation metadata
untouched by any claim and is omitted. -/
structure Transaction where
  id : Nat
  productId : Nat
  productName : String
  type : TxType
  quantity : ℚ
  unitCost : ℚ
  date : String
  notes : String
deriving DecidableEq, Repr

/-- Note text synthesised by `handleTransaction`
(`src/unnamed/part_002` lines 188-190) when a non-EXIT movement carries
a changed cost.  The pt-BR currency rendering of the two prices is
modelled by `toString` on `ℚ`; no claim depends on the exact text. -/
def priceUpdateNote (notes : String) (oldCost newCost : ℚ) : String :=
  (if notes = "" then "" else notes ++ " | ") ++
    "Preço atualizado de " ++ toString oldCost ++ " para " ++ toString newCost

/-- Stock mutation engine: `handleTransaction` of
`src/unnamed/part_002` (lines 171-231), restricted to the one product
whose id matches `selectedProduct` (the `products.map` touches no other
element).  `none` models the early `return` that rejects a non-positive
quantity before any state is written; the EXIT two-step confirmation
(`showConfirmStep`) is a UI re-prompt with no state effect and is not a
separate outcome.  On acceptance the result is the updated product and
the ledger entry prepended to the transaction log. -/
def handleTransaction (ts : String) (txId : Nat) (p : Product) (ty : TxType)
    (quantity transactionCost : ℚ) (notes : String) :
    Option (Product × Transaction) :=
  if quantity ≤ 0 then none
  else
    let txNotes : String :=
      if ty ≠ TxType.saida ∧ transactionCost ≠ p.costPrice then
        priceUpdateNote notes p.costPrice transactionCost
      else notes
    let tx : Transaction :=
      { id := txId, productId := p.id, productName := p.name, type := ty,
        quantity := quantity, unitCost := transactionCost, date := ts,
        notes := txNotes }
    let newStock : ℚ :=
      if ty = TxType.entrada then p.currentStock + quantity
      else if ty = TxType.saida then p.currentStock - quantity
      else quantity
    let newCostPrice : ℚ :=
      if ty = TxType.entrada ∨ ty = TxType.ajuste then transactionCost
      else p.costPrice
    let newPrevCost : Option ℚ :=
      if newCostPrice ≠ p.costPrice then some p.costPrice
      else p.previousCostPrice
    let updatedHistory : List CostHistoryEntry :=
      if newCostPrice ≠ p.costPrice ∨ p.costHistory = [] then
        (⟨newCostPrice, ts⟩ :: p.costHistory).take 5
      else p.costHistory
    some ({ p with
              previousStock := p.currentStock,
              currentStock := max 0 newStock,
              costPrice := newCostPrice,
              previousCostPrice := newPrevCost,
              costHistory := updatedHistory }, tx)

/-- Stock mutation engine of the `src/App.tsx` revision
(`handleTransaction`, lines 398-426), restricted to the matched
product.  This revision performs no quantity validation, never caps the
history, appends at the end on every ENTRY, and leaves the stock level
untouched on ADJUSTMENT. -/
def appHandleTransaction (ts : String) (txId : Nat) (p : Product) (ty : TxType)
    (quantity transCost : ℚ) : Product × Transaction :=
  let isEntry : Bool := ty = TxType.entrada
  let tx : Transaction :=
    { id := txId, productId := p.id, productName := p.name, type := ty,
      quantity := quantity,
      unitCost := if isEntry then transCost else p.costPrice,
      date := ts, notes := "" }
  let newStock : ℚ :=
    if ty = TxType.entrada then p.currentStock + quantity
    else if ty = TxType.saida then p.currentStock - quantity
    else p.currentStock
  let newHistory : List CostHistoryEntry :=
    if isEntry then p.costHistory ++ [⟨transCost, ts⟩] else p.costHistory
  ({ p with
      currentStock := max 0 newStock,
      previousCostPrice :=
        if isEntry ∧ transCost ≠ p.costPrice then some p.costPrice
        else p.previousCostPrice,
      costPrice := if isEntry then transCost else p.costPrice,
      costHistory := newHistory }, tx)

/-- One transaction request, for iterating the engine over a sequence
of `apply` calls. -/
structure Request where
  ts : String
  txId : Nat
  type : TxType
  quantity : ℚ
  transactionCost : ℚ
  notes : String

/-- Applies one request to a product with the `part_002` engine; a
rejected request leaves the product unchanged, exactly as the source's
early `return` leaves the React state untouched. -/
def applyRequest (p : Product) (r : Request) : Product :=
  match handleTransaction r.ts r.txId p r.type r.quantity r.transactionCost r.notes with
  | some pr => pr.1
  | none => p

/-- Risk status values of the alert classifier (`AlertStatus` in
`types.ts`: `CRITICAL`, `ATTENTION`, `NORMAL`). -/
inductive AlertStatus where
  | critical
  | attention
  | normal
deriving DecidableEq, Repr

/-- Alert classifier of the inventory list (`src/App.tsx` lines
335-336): `isCritical` / `isAttention` are the two mutually exclusive
alert booleans; a product matching neither is `NORMAL`. -/
def alertStatus (p : Product) : AlertStatus :=
  if p.currentStock ≤ p.minStock then AlertStatus.critical
  else if p.minStock < p.currentStock ∧ p.currentStock ≤ p.safetyStock then
    AlertStatus.attention
  else AlertStatus.normal

/-- Status labels of the `Status` column written by `exportToExcel`
(`src/services/exportService.ts` lines 51-58): `SAUDÁVEL`,
`ESGOTADO`, `CRÍTICO`, `ATENÇÃO`. -/
inductive ExportStatus where
  | saudavel
  | esgotado
  | critico
  | atencao
deriving DecidableEq, Repr

/-- Status classifier of the Excel export
(`src/services/exportService.ts` lines 51-58): an out-of-stock case is
checked before the critical threshold. -/
def exportStatus (p : Product) : ExportStatus :=
  if p.currentStock = 0 then ExportStatus.esgotado
  else if p.currentStock ≤ p.minStock then ExportStatus.critico
  else if p.currentStock ≤ p.safetyStock then ExportStatus.atencao
  else ExportStatus.saudavel

/-- JavaScript `Math.round` on a non-negative rational: round half
away from zero, i.e. `⌊x + 1/2⌋`. -/
def jsRound (q : ℚ) : ℤ := ⌊q + 1 / 2⌋

/-- Autonomy value of the `Autonomia em Dias` column of the Excel
export (`src/services/exportService.ts` lines 46-48 and 74): `none`
renders as the string `Indeterminada`, `some d` as `d dias`.  (The
intermediate `autonomiaDias` variable defaults to `0` at line 48, but
the column at line 74 re-tests `monthlyConsumption > 0` and never
shows that `0`.) -/
def exportAutonomyCell (p : Product) : Option ℤ :=
  if 0 < p.monthlyConsumption then
    some ⌊p.currentStock / p.monthlyConsumption * 30⌋
  else none

/-- Autonomy of the inventory card in `src/unnamed/part_002` (lines
454-456) and `src/unnamed/part_001` (lines 443-445): `none` embeds the
`null` sentinel, rendered `Indeterminado` / `--`. -/
def cardAutonomyDays (p : Product) : Option ℤ :=
  if 0 < p.monthlyConsumption then
    some ⌊p.currentStock / p.monthlyConsumption * 30⌋
  else none

/-- Coverage-days forecast of the `src/App.tsx` `ProductCard` (lines
48-51): sentinel `999` (rendered `∞`) when consumption is not
positive, otherwise `Math.round`, not `Math.floor`. -/
def appDaysCoverage (p : Product) : ℤ :=
  if p.monthlyConsumption ≤ 0 then 999
  else jsRound (p.currentStock / p.monthlyConsumption * 30)

/-- Autonomy of the second `ProductCard` component of
`src/unnamed/part_001` (line 755): the sentinel for non-positive
consumption is the numeric `0`, shown as `0 dias de autonomia` at
line 859. -/
def card2AutonomyDays (p : Product) : ℤ :=
  if 0 < p.monthlyConsumption then
    ⌊p.currentStock / p.monthlyConsumption * 30⌋
  else 0

/-- Ledger record pushed by `handleBulkZeroStock`
(`src/unnamed/part_002` lines 243-252) for one product: an ADJUSTMENT
with quantity `0` at the product's current cost. -/
def zeroStockEntry (txId : Nat) (ts : String) (p : Product) : Transaction :=
  { id := txId, productId := p.id, productName := p.name,
    type := TxType.ajuste, quantity := 0, unitCost := p.costPrice,
    date := ts, notes := "Ajuste em massa: Zerar estoque" }

/-- Bulk zero-stock operation: `handleBulkZeroStock` of
`src/unnamed/part_002` (lines 233-263).  The source maps over the
catalog, pushing one ledger entry per selected product whose stock is
positive and rewriting every selected product to stock `0`; the
recursion below performs the same traversal, returning the updated
catalog and the pushed entries in catalog order (the source then
prepends them to the transaction log).  `sel` models membership in the
`selectedIds` set and `txId` the fresh-id supply. -/
def bulkZeroStock (ts : String) (sel : Nat → Bool) (txId : Nat) :
    List Product → List Product × List Transaction
  | [] => ([], [])
  | p :: ps =>
    if sel p.id then
      if 0 < p.currentStock then
        let r := bulkZeroStock ts sel (txId + 1) ps
        ({ p with previousStock := p.currentStock, currentStock := 0 } :: r.1,
          zeroStockEntry txId ts p :: r.2)
      else
        let r := bulkZeroStock ts sel txId ps
        ({ p with previousStock := p.currentStock, currentStock := 0 } :: r.1,
          r.2)
    else
      let r := bulkZeroStock ts sel txId ps
      (p :: r.1, r.2)

/-- Import row after the spreadsheet adapter of `handleBulkImport`
(`src/unnamed/part_001` lines 1154-1171) has resolved column-name
synonyms, coerced the numeric cells and applied the defaults: `code`
holds the already-trimmed `String(...).trim()` value, so a row is
skipped exactly when `code = ""`. -/
structure Row where
  code : String
  name : String
  category : String
  unit : String
  currentStock : ℚ
  minStock : ℚ
  safetyStock : ℚ
  monthlyConsumption : ℚ
  costPrice : ℚ
  salePrice : ℚ
  image : String
deriving DecidableEq, Repr

/-- Merge of an import row into a matched product
(`src/unnamed/part_001` lines 1174-1183): row fields overwrite the
product, and when the incoming cost differs the previous cost is
remembered and the history is prepended and truncated to 5. -/
def mergeRow (ts : String) (r : Row) (p : Product) : Product :=
  { p with
      code := r.code, name := r.name, category := r.category,
      unit := r.unit, currentStock := r.currentStock,
      minStock := r.minStock, safetyStock := r.safetyStock,
      monthlyConsumption := r.monthlyConsumption,
      costPrice := r.costPrice, salePrice := r.salePrice,
      image := r.image,
      previousCostPrice :=
        if r.costPrice ≠ p.costPrice then some p.costPrice
        else p.previousCostPrice,
      costHistory :=
        if r.costPrice ≠ p.costPrice then
          (⟨r.costPrice, ts⟩ :: p.costHistory).take 5
        else p.costHistory }

/-- Product created from an unmatched import row
(`src/unnamed/part_001` lines 1186-1192): fresh id, previous cost
seeded equal to the row cost, single-entry history. -/
def rowProduct (n : Nat) (ts : String) (r : Row) : Product :=
  { id := n, code := r.code, name := r.name, category := r.category,
    unit := r.unit, currentStock := r.currentStock,
    minStock := r.minStock, safetyStock := r.safetyStock,
    monthlyConsumption := r.monthlyConsumption,
    costPrice := r.costPrice, salePrice := r.salePrice,
    image := r.image, previousStock := r.currentStock,
    previousCostPrice := some r.costPrice,
    costHistory := [⟨r.costPrice, ts⟩] }

/-- Catalog together with the reconciliation bookkeeping of
`handleBulkImport`: the fresh-id supply and the `updatedCount` /
`addedCount` counters of `src/unnamed/part_001` lines 1147-1148. -/
structure ImportState where
  catalog : List Product
  nextId : Nat
  updated : Nat
  added : Nat
deriving DecidableEq, Repr

/-- Replaces the first product whose `code` equals the row's code with
the merged product (`findIndex` at `src/unnamed/part_001` line 1157
followed by the in-place write at line 1176); `none` when no product
matches. -/
def findAndMerge (ts : String) (r : Row) : List Product → Option (List Product)
  | [] => none
  | p :: ps =>
    if p.code = r.code then some (mergeRow ts r p :: ps)
    else
      match findAndMerge ts r ps with
      | some ps' => some (p :: ps')
      | none => none

/-- Processing of one import row (`src/unnamed/part_001` lines
1153-1196): a row without a resolvable code is skipped; a matched row
updates in place and bumps `updatedCount`; an unmatched row appends a
freshly created product and bumps `addedCount`. -/
def importRow (ts : String) (st : ImportState) (r : Row) : ImportState :=
  if r.code = "" then st
  else
    match findAndMerge ts r st.catalog with
    | some cat' => { st with catalog := cat', updated := st.updated + 1 }
    | none =>
      { st with
          catalog := st.catalog ++ [rowProduct st.nextId ts r],
          nextId := st.nextId + 1,
          added := st.added + 1 }

/-- Catalog reconciler: `handleBulkImport` of `src/unnamed/part_001`
(lines 1127-1207), after the spreadsheet adapter.  All rows of one run
share a single timestamp (line 1149) and are folded over the mutable
`nextProducts` array in order. -/
def handleBulkImport (ts : String) (rows : List Row) (st : ImportState) :
    ImportState :=
  rows.foldl (importRow ts) st

/-- Sample catalog entry used to instantiate theorems at concrete
inputs; its values mirror the scenario product of the specification. -/
def sampleProduct : Product :=
  { id := 1, code := "P1", name := "Item", category := "Geral",
    unit := "KG", safetyStock := 15, minStock := 5,
    monthlyConsumption := 20, currentStock := 10, previousStock := 10,
    costPrice := 10, salePrice := 12, previousCostPrice := none,
    costHistory := [⟨10, "t0"⟩], image := "" }

theorem handleTransaction_some_spec {ts : String} {txId : Nat} {p : Product}
    {ty : TxType} {q c : ℚ} {notes : String} {p' : Product} {tx : Transaction}
    (h : handleTransaction ts txId p ty q c notes = some (p', tx)) :
    0 < q ∧
    p'.currentStock = max 0 (if ty = TxType.entrada then p.currentStock + q
      else if ty = TxType.saida then p.currentStock - q else q) ∧
    p'.costPrice =
      (if ty = TxType.entrada ∨ ty = TxType.ajuste then c else p.costPrice) ∧
    p'.previousCostPrice =
      (if p'.costPrice ≠ p.costPrice then some p.costPrice
       else p.previousCostPrice) ∧
    p'.costHistory =
      (if p'.costPrice ≠ p.costPrice ∨ p.costHistory = [] then
        (⟨p'.costPrice, ts⟩ :: p.costHistory).take 5
       else p.costHistory) ∧
    p'.previousStock = p.currentStock ∧
    tx.quantity = q ∧ tx.unitCost = c ∧ tx.date = ts ∧
    tx.id = txId ∧ tx.productId = p.id ∧ tx.productName = p.name ∧
    tx.type = ty := by
  unfold handleTransaction at h
  by_cases hq : q ≤ 0
  · rw [if_pos hq] at h
    exact absurd h (by simp)
  · rw [if_neg hq] at h
    simp only [Option.some.injEq, Prod.mk.injEq] at h
    obtain ⟨hp, htx⟩ := h
    subst hp htx
    refine ⟨lt_of_not_ge hq, rfl, rfl, rfl, rfl, rfl, rfl, rfl, rfl, rfl,
      rfl, rfl, rfl⟩

theorem handleTransaction_isSome {ts : String} {txId : Nat} {p : Product}
    {ty : TxType} {q c : ℚ} {notes : String} (hq : 0 < q) :
    (handleTransaction ts txId p ty q c notes).isSome = true := by
  unfold handleTransaction
  rw [if_neg (not_le.2 hq)]
  rfl

theorem applyRequest_nonneg (p : Product) (r : Request) :
    0 ≤ p.currentStock → 0 ≤ (applyRequest p r).currentStock := by
  intro h0
  unfold applyRequest
  cases heq : handleTransaction r.ts r.txId p r.type r.quantity
      r.transactionCost r.notes with
  | none => exact h0
  | some pr =>
    obtain ⟨-, hs, -⟩ := handleTransaction_some_spec heq
    rw [hs]
    exact le_max_left 0 _

theorem foldl_applyRequest_nonneg (p : Product) (h0 : 0 ≤ p.currentStock)
    (reqs : List Request) :
    0 ≤ (List.foldl applyRequest p reqs).currentStock := by
  induction reqs generalizing p with
  | nil => exact h0
  | cons r rs ih =>
    rw [List.foldl_cons]
    exact ih _ (applyRequest_nonneg p r h0)

/-- C1: for every product and every sequence of accepted
`handleTransaction` calls of any type, `currentStock` stays
non-negative: every accepted call of the canonical (`part_002`) engine
returns a non-negative stock regardless of the input product, the
`App.tsx` engine does the same, and a non-negative stock is preserved
by any sequence of requests. -/
theorem stock_nonneg_after_apply (ts : String) (txId : Nat) (p : Product)
    (ty : TxType) (q c : ℚ) (notes : String) :
    (∀ p' tx, handleTransaction ts txId p ty q c notes = some (p', tx) →
      0 ≤ p'.currentStock) ∧
    0 ≤ (appHandleTransaction ts txId p ty q c).1.currentStock ∧
    (0 ≤ p.currentStock →
      ∀ reqs : List Request, 0 ≤ (List.foldl applyRequest p reqs).currentStock) := by
  refine ⟨?_, ?_, ?_⟩
  · intro p' tx h
    obtain ⟨-, hs, -⟩ := handleTransaction_some_spec h
    rw [hs]
    exact le_max_left 0 _
  · show 0 ≤ max 0 _
    exact le_max_left 0 _
  · intro h0 reqs
    exact foldl_applyRequest_nonneg p h0 reqs

/-- Witness for C1 at a concrete EXIT request. -/
theorem stock_nonneg_after_apply_witness :
    handleTransaction "t1" 2 sampleProduct TxType.saida 8 10 "" =
      some ({ sampleProduct with currentStock := 2 },
        { id := 2, productId := 1, productName := "Item",
          type := TxType.saida, quantity := 8, unitCost := 10,
          date := "t1", notes := "" }) ∧
    0 ≤ ({ sampleProduct with currentStock := 2 } : Product).currentStock := by
  have h : handleTransaction "t1" 2 sampleProduct TxType.saida 8 10 "" =
      some ({ sampleProduct with currentStock := 2 },
        { id := 2, productId := 1, productName := "Item",
          type := TxType.saida, quantity := 8, unitCost := 10,
          date := "t1", notes := "" }) := by
    norm_num [handleTransaction, sampleProduct, max_def]
    decide
  exact ⟨h,
    (stock_nonneg_after_apply "t1" 2 sampleProduct TxType.saida 8 10 "").1
      _ _ h⟩

/-- C2: an EXIT of any positive quantity is accepted, the new stock is
`max 0 (currentStock - quantity)`, and the committed ledger entry
records the originally requested quantity even when it exceeds the
available stock. -/
theorem exit_clamp_keeps_requested_quantity (ts : String) (txId : Nat)
    (p : Product) (q c : ℚ) (notes : String) (hq : 0 < q) :
    ∃ p' tx, handleTransaction ts txId p TxType.saida q c notes =
        some (p', tx) ∧
      p'.currentStock = max 0 (p.currentStock - q) ∧ tx.quantity = q := by
  obtain ⟨pr, hpr⟩ := Option.isSome_iff_exists.1 (handleTransaction_isSome hq)
  obtain ⟨-, hs, -, -, -, -, hqq, -⟩ := handleTransaction_some_spec hpr
  refine ⟨pr.1, pr.2, by rw [hpr], ?_, hqq⟩
  simpa using hs

/-- Witness for C2: the clamp scenario `currentStock 5`, EXIT of `8`
yields stock `0` and a ledger quantity of `8`. -/
theorem exit_clamp_keeps_requested_quantity_witness :
    handleTransaction "t1" 2 { sampleProduct with currentStock := 5 }
        TxType.saida 8 10 "" =
      some ({ sampleProduct with currentStock := 0, previousStock := 5 },
        { id := 2, productId := 1, productName := "Item",
          type := TxType.saida, quantity := 8, unitCost := 10,
          date := "t1", notes := "" }) ∧
    ({ sampleProduct with currentStock := 0, previousStock := 5 } :
      Product).currentStock = 0 ∧
    ({ id := 2, productId := 1, productName := "Item",
       type := TxType.saida, quantity := 8, unitCost := 10,
       date := "t1", notes := "" } : Transaction).quantity = 8 := by
  have h : handleTransaction "t1" 2 { sampleProduct with currentStock := 5 }
      TxType.saida 8 10 "" =
      some ({ sampleProduct with currentStock := 0, previousStock := 5 },
        { id := 2, productId := 1, productName := "Item",
          type := TxType.saida, quantity := 8, unitCost := 10,
          date := "t1", notes := "" }) := by
    norm_num [handleTransaction, sampleProduct, max_def]
    decide
  obtain ⟨p', tx, heq, hs, hqq⟩ :=
    exit_clamp_keeps_requested_quantity "t1" 2
      { sampleProduct with currentStock := 5 } 8 10 "" (by norm_num)
  rw [h, Option.some_inj, Prod.mk.injEq] at heq
  obtain ⟨hp, ht⟩ := heq
  refine ⟨h, ?_, ?_⟩
  · rw [hp]
    exact hs.trans (by norm_num [sampleProduct, max_def])
  · rw [ht]
    exact hqq

/-- C4 counterexample: the claim accepts an ADJUSTMENT of quantity `0`
as the new absolute stock level, but the guard of
`src/unnamed/part_002` line 172 rejects every request with
`quantity ≤ 0`, ADJUSTMENT included: the call returns no state change
at all. -/
theorem adjustment_zero_rejected :
    handleTransaction "t1" 2 sampleProduct TxType.ajuste 0 10 "" = none := by
  decide

/-- C4 (amended): any request with non-positive quantity — ENTRY, EXIT
or ADJUSTMENT alike — is rejected before any mutation and produces no
state change, while an ADJUSTMENT of any positive quantity is accepted
and installs that quantity as the new absolute stock level. -/
theorem quantity_validation (ts : String) (txId : Nat) (p : Product)
    (ty : TxType) (q c : ℚ) (notes : String) :
    (q ≤ 0 → handleTransaction ts txId p ty q c notes = none) ∧
    (0 < q → (handleTransaction ts txId p TxType.ajuste q c notes).isSome = true) ∧
    (0 < q → ∀ p' tx,
      handleTransaction ts txId p TxType.ajuste q c notes = some (p', tx) →
        p'.currentStock = q) := by
  refine ⟨?_, fun hq => handleTransaction_isSome hq, ?_⟩
  · intro hq
    unfold handleTransaction
    rw [if_pos hq]
  · intro hq p' tx h
    obtain ⟨-, hs, -⟩ := handleTransaction_some_spec h
    rw [hs]
    simpa using max_eq_right hq.le

/-- Witness for C4 (amended) at concrete rejected and accepted
requests. -/
theorem quantity_validation_witness :
    handleTransaction "t1" 2 sampleProduct TxType.saida (-3) 10 "" = none ∧
    ({ sampleProduct with currentStock := 4 } : Product).currentStock = 4 := by
  have h : handleTransaction "t1" 2 sampleProduct TxType.ajuste 4 10 "" =
      some ({ sampleProduct with currentStock := 4 },
        { id := 2, productId := 1, productName := "Item",
          type := TxType.ajuste, quantity := 4, unitCost := 10,
          date := "t1", notes := "" }) := by
    norm_num [handleTransaction, sampleProduct, max_def]
    decide
  refine ⟨?_, ?_⟩
  · exact (quantity_validation "t1" 2 sampleProduct TxType.saida (-3) 10 "").1
      (by norm_num)
  · exact (quantity_validation "t1" 2 sampleProduct TxType.ajuste 4 10 "").2.2
      (by norm_num) _ _ h

/-- C5: across any accepted mutation the cost history keeps at most
K = 5 entries; it is rewritten only when the cost actually changes (or
when it was empty, to seed it) and is left untouched otherwise; and
immediately after a cost-changing mutation its head is the new cost
with the mutation timestamp. -/
theorem cost_history_bounded_and_head_tracks_cost (ts : String) (txId : Nat)
    (p : Product) (ty : TxType) (q c : ℚ) (notes : String)
    (p' : Product) (tx : Transaction)
    (h : handleTransaction ts txId p ty q c notes = some (p', tx)) :
    (p.costHistory.length ≤ 5 → p'.costHistory.length ≤ 5) ∧
    (p'.costPrice ≠ p.costPrice →
      p'.costHistory = (⟨p'.costPrice, ts⟩ :: p.costHistory).take 5 ∧
      p'.costHistory.head? = some ⟨p'.costPrice, ts⟩) ∧
    (p'.costPrice = p.costPrice → p.costHistory ≠ [] →
      p'.costHistory = p.costHistory) := by
  obtain ⟨-, -, -, -, hh, -⟩ := handleTransaction_some_spec h
  refine ⟨?_, ?_, ?_⟩
  · intro hlen
    rw [hh]
    split
    · simp [List.length_take_le 5 _]
    · exact hlen
  · intro hne
    rw [hh, if_pos (Or.inl hne)]
    exact ⟨rfl, by simp [List.take_succ_cons]⟩
  · intro heq hne
    rw [hh, if_neg (by simp [heq, hne])]

/-- Witness for C5 at a concrete cost-changing ENTRY (cost 10 to 12):
the history stays within 5 entries and its head is the new cost with
the mutation timestamp. -/
theorem cost_history_bounded_and_head_tracks_cost_witness :
    ({ sampleProduct with
        currentStock := 11
        costPrice := 12
        previousCostPrice := some 10
        costHistory := [⟨12, "t1"⟩, ⟨10, "t0"⟩] } :
      Product).costHistory.length ≤ 5 ∧
    ({ sampleProduct with
        currentStock := 11
        costPrice := 12
        previousCostPrice := some 10
        costHistory := [⟨12, "t1"⟩, ⟨10, "t0"⟩] } :
      Product).costHistory.head? = some ⟨12, "t1"⟩ := by
  have h : handleTransaction "t1" 2 sampleProduct TxType.entrada 1 12 "" =
      some ({ sampleProduct with
          currentStock := 11
          costPrice := 12
          previousCostPrice := some 10
          costHistory := [⟨12, "t1"⟩, ⟨10, "t0"⟩] },
        { id := 2, productId := 1, productName := "Item",
          type := TxType.entrada, quantity := 1, unitCost := 12,
          date := "t1",
          notes := "Preço atualizado de 10 para 12" }) := by
    norm_num [handleTransaction, priceUpdateNote, sampleProduct, max_def]
    decide
  have H := cost_history_bounded_and_head_tracks_cost "t1" 2 sampleProduct
    TxType.entrada 1 12 "" _ _ h
  exact ⟨H.1 (by decide), (H.2.1 (by decide)).2⟩

/-- C6 counterexample: the claim says an accepted EXIT returns a
product with exactly the input's `costHistory`, but `part_002` lines
211-214 seed an empty history even on EXIT: exiting 1 unit from a
product with `costHistory = []` yields `costHistory = [{price 10,
date trans-time}]`, not `[]`. -/
theorem exit_seeds_empty_cost_history :
    (handleTransaction "t1" 2 { sampleProduct with costHistory := [] }
        TxType.saida 1 10 "").map (fun r => r.1.costHistory) =
      some [⟨10, "t1"⟩] ∧
    ({ sampleProduct with costHistory := [] } : Product).costHistory = [] := by
  decide

/-- C6 (amended): an accepted EXIT never changes `costPrice` or
`previousCostPrice`, and leaves `costHistory` unchanged whenever it is
non-empty; an empty history is seeded with the single entry
`{price := costPrice, date := transaction time}` (the cost value
itself still unchanged). -/
theorem exit_preserves_cost_fields (ts : String) (txId : Nat) (p : Product)
    (q c : ℚ) (notes : String) (p' : Product) (tx : Transaction)
    (h : handleTransaction ts txId p TxType.saida q c notes = some (p', tx)) :
    p'.costPrice = p.costPrice ∧
    p'.previousCostPrice = p.previousCostPrice ∧
    (p.costHistory ≠ [] → p'.costHistory = p.costHistory) ∧
    (p.costHistory = [] → p'.costHistory = [⟨p.costPrice, ts⟩]) := by
  obtain ⟨-, -, hc, hpc, hh, -⟩ := handleTransaction_some_spec h
  simp only [reduceCtorEq, or_self, if_false] at hc
  refine ⟨hc, ?_, ?_, ?_⟩
  · rw [hpc, if_neg (by simp [hc])]
  · intro hne
    rw [hh, if_neg (by simp [hc, hne])]
  · intro he
    rw [hh, if_pos (Or.inr he), he, hc]
    rfl

/-- Witness for C6 (amended) at a concrete EXIT from a non-empty
history: every cost field survives unchanged. -/
theorem exit_preserves_cost_fields_witness :
    ({ sampleProduct with currentStock := 7 } : Product).costPrice =
      sampleProduct.costPrice ∧
    ({ sampleProduct with currentStock := 7 } : Product).previousCostPrice =
      sampleProduct.previousCostPrice ∧
    ({ sampleProduct with currentStock := 7 } : Product).costHistory =
      sampleProduct.costHistory := by
  have h : handleTransaction "t1" 2 sampleProduct TxType.saida 3 10 "" =
      some ({ sampleProduct with currentStock := 7 },
        { id := 2, productId := 1, productName := "Item",
          type := TxType.saida, quantity := 3, unitCost := 10,
          date := "t1", notes := "" }) := by
    norm_num [handleTransaction, sampleProduct, max_def]
    decide
  obtain ⟨h1, h2, h3, -⟩ :=
    exit_preserves_cost_fields "t1" 2 sampleProduct 3 10 "" _ _ h
  exact ⟨h1, h2, h3 (by decide)⟩

/-- C7 counterexample: the claim assigns CRITICAL to every product
with `currentStock ≤ minStock`, but the Excel-export classifier
(`exportService.ts` lines 52-53) tests `currentStock === 0` first: a
product with stock `0` and `minStock 5` is labelled `ESGOTADO`, not
`CRÍTICO`. -/
theorem export_zero_stock_not_critical :
    ({ sampleProduct with currentStock := 0 } : Product).currentStock ≤
      ({ sampleProduct with currentStock := 0 } : Product).minStock ∧
    exportStatus { sampleProduct with currentStock := 0 } =
      ExportStatus.esgotado ∧
    exportStatus { sampleProduct with currentStock := 0 } ≠
      ExportStatus.critico := by
  decide


theorem alertStatus_critical_iff (p : Product) :
    alertStatus p = AlertStatus.critical ↔ p.currentStock ≤ p.minStock := by
  unfold alertStatus
  split_ifs with h1 h2 <;> simp [h1]

theorem alertStatus_attention_iff (p : Product) :
    alertStatus p = AlertStatus.attention ↔
      p.minStock < p.currentStock ∧ p.currentStock ≤ p.safetyStock := by
  unfold alertStatus
  split_ifs with h1 h2
  · simp [not_lt.2 h1]
  · simp [h2]
  · simp [h2]

theorem alertStatus_normal_iff (p : Product) :
    alertStatus p = AlertStatus.normal ↔
      p.minStock < p.currentStock ∧ p.safetyStock < p.currentStock := by
  unfold alertStatus
  split_ifs with h1 h2
  · simp [not_lt.2 h1]
  · simp only [reduceCtorEq, false_iff, not_and, not_lt]
    intro _
    exact h2.2
  · have hm := not_le.1 h1
    have hs : p.safetyStock < p.currentStock :=
      not_le.1 fun hs => h2 ⟨hm, hs⟩
    simp [hm, hs]

/-- C7 (amended): the inventory-list classifier assigns exactly one of
CRITICAL / ATTENTION / NORMAL with the claimed precedence — in
particular `currentStock = minStock = safetyStock` is CRITICAL, never
ATTENTION — while the Excel-export classifier prepends an out-of-stock
(`ESGOTADO`) case for `currentStock = 0` and only otherwise follows the
same precedence. -/
theorem classifier_precedence (p : Product) :
    (alertStatus p = AlertStatus.critical ↔ p.currentStock ≤ p.minStock) ∧
    (alertStatus p = AlertStatus.attention ↔
      p.minStock < p.currentStock ∧ p.currentStock ≤ p.safetyStock) ∧
    (alertStatus p = AlertStatus.normal ↔
      p.minStock < p.currentStock ∧ p.safetyStock < p.currentStock) ∧
    (p.currentStock = p.minStock → p.minStock = p.safetyStock →
      alertStatus p = AlertStatus.critical) ∧
    (p.currentStock = 0 → exportStatus p = ExportStatus.esgotado) ∧
    (p.currentStock ≠ 0 →
      ((exportStatus p = ExportStatus.critico ↔
        p.currentStock ≤ p.minStock) ∧
       (exportStatus p = ExportStatus.atencao ↔
        p.minStock < p.currentStock ∧ p.currentStock ≤ p.safetyStock) ∧
       (exportStatus p = ExportStatus.saudavel ↔
        p.minStock < p.currentStock ∧ p.safetyStock < p.currentStock))) := by
  refine ⟨alertStatus_critical_iff p, alertStatus_attention_iff p,
    alertStatus_normal_iff p, ?_, ?_, ?_⟩
  · intro h1 _
    exact (alertStatus_critical_iff p).2 (le_of_eq h1)
  · intro h0
    unfold exportStatus
    rw [if_pos h0]
  · intro h0
    unfold exportStatus
    rw [if_neg h0]
    refine ⟨?_, ?_, ?_⟩
    · split_ifs with h1 h2 <;> simp [h1]
    · split_ifs with h1 h2
      · simp [not_lt.2 h1]
      · simp [not_le.1 h1, h2]
      · simp [h2]
    · split_ifs with h1 h2
      · simp [not_lt.2 h1]
      · simp only [reduceCtorEq, false_iff, not_and, not_lt]
        intro _
        exact h2
      · simp [not_le.1 h1, not_le.1 h2]

/-- Witness for C7 (amended) at the equal-thresholds product and a
zero-stock product. -/
theorem classifier_precedence_witness :
    alertStatus
        { sampleProduct with
            currentStock := 5, minStock := 5, safetyStock := 5 } =
      AlertStatus.critical ∧
    exportStatus { sampleProduct with currentStock := 0, minStock := 5 } =
      ExportStatus.esgotado := by
  constructor
  · exact (classifier_precedence _).2.2.2.1 (by norm_num) (by norm_num)
  · exact (classifier_precedence _).2.2.2.2.1 (by norm_num)

/-- C8 counterexample: the claim demands `floor(currentStock /
monthlyConsumption * 30)` and a non-numeric sentinel, but the
`src/App.tsx` card rounds instead of flooring (stock 1, consumption 4
gives 8, not `floor 7.5 = 7`), and the second `part_001` card uses the
numeric `0` as its no-consumption sentinel. -/
theorem autonomy_round_and_zero_sentinel :
    appDaysCoverage
        { sampleProduct with currentStock := 1, monthlyConsumption := 4 } = 8 ∧
    (⌊(1 : ℚ) / 4 * 30⌋ : ℤ) = 7 ∧
    card2AutonomyDays
        { sampleProduct with monthlyConsumption := 0 } = 0 := by
  refine ⟨?_, ?_, ?_⟩
  · show (if (4 : ℚ) ≤ 0 then (999 : ℤ) else jsRound ((1 : ℚ) / 4 * 30)) = 8
    rw [if_neg (by norm_num)]
    unfold jsRound
    exact Int.floor_eq_iff.2 (by norm_num)
  · exact Int.floor_eq_iff.2 (by norm_num)
  · show (if (0 : ℚ) < 0 then ⌊(0 : ℚ)⁻¹ * 0 * 30⌋ else (0 : ℤ)) = 0
    rw [if_neg (by norm_num)]

theorem jsRound_floor_or_succ (q : ℚ) :
    jsRound q = ⌊q⌋ ∨ jsRound q = ⌊q⌋ + 1 := by
  have h1 : ⌊q⌋ ≤ jsRound q := Int.floor_le_floor (by linarith)
  have h2 : jsRound q ≤ ⌊q⌋ + 1 := by
    have := Int.floor_le_floor (α := ℚ) (show q + 1 / 2 ≤ q + 1 by linarith)
    rwa [Int.floor_add_one] at this
  omega

/-- C8 (amended): with positive monthly consumption the Excel export
and the `part_001`/`part_002` inventory cards forecast
`floor(currentStock / monthlyConsumption * 30)` days, while the
`src/App.tsx` card uses `Math.round` (floor or floor + 1); with
non-positive consumption the export and the main cards use a
non-numeric sentinel (`Indeterminada` / `null`), the `src/App.tsx`
card uses `999` (rendered `∞`), and the second `part_001` card alone
uses the numeric `0`. -/
theorem autonomy_forecast_by_revision (p : Product) :
    (0 < p.monthlyConsumption →
      exportAutonomyCell p =
        some ⌊p.currentStock / p.monthlyConsumption * 30⌋ ∧
      cardAutonomyDays p =
        some ⌊p.currentStock / p.monthlyConsumption * 30⌋ ∧
      card2AutonomyDays p = ⌊p.currentStock / p.monthlyConsumption * 30⌋ ∧
      appDaysCoverage p =
        jsRound (p.currentStock / p.monthlyConsumption * 30) ∧
      (appDaysCoverage p = ⌊p.currentStock / p.monthlyConsumption * 30⌋ ∨
       appDaysCoverage p =
         ⌊p.currentStock / p.monthlyConsumption * 30⌋ + 1)) ∧
    (p.monthlyConsumption ≤ 0 →
      exportAutonomyCell p = none ∧ cardAutonomyDays p = none ∧
      appDaysCoverage p = 999 ∧ card2AutonomyDays p = 0) := by
  unfold exportAutonomyCell cardAutonomyDays card2AutonomyDays appDaysCoverage
  constructor
  · intro h
    simp only [if_pos h, if_neg (not_le.2 h)]
    exact ⟨trivial, trivial, trivial, trivial, jsRound_floor_or_succ _⟩
  · intro h
    simp only [if_neg (not_lt.2 h), if_pos h]
    exact ⟨trivial, trivial, trivial, trivial⟩

/-- Witness for C8 (amended) at the specification's forecast scenario
(stock 10, consumption 20) and at zero consumption. -/
theorem autonomy_forecast_by_revision_witness :
    exportAutonomyCell sampleProduct = some 15 ∧
    exportAutonomyCell { sampleProduct with monthlyConsumption := 0 } =
      none := by
  constructor
  · have h :=
      (autonomy_forecast_by_revision sampleProduct).1 (by norm_num [sampleProduct])
    rw [h.1]
    norm_num [sampleProduct]
  · exact ((autonomy_forecast_by_revision _).2 (by norm_num)).1

/-- C9 counterexample: zeroing the selection `{A, B}` with
`A.currentStock = 0` and `B.currentStock = 5` does produce exactly one
ledger entry (for B only), but it does not leave A unchanged as the
claim states: line 254 of `src/unnamed/part_002` rewrites
`previousStock` of every selected product, so A's `previousStock 7`
becomes `0`. -/
theorem bulk_zero_rewrites_previousStock :
    ((bulkZeroStock "t1" (fun i => i == 1 || i == 2) 0
        [{ sampleProduct with
             id := 1
             currentStock := 0
             previousStock := 7 },
         { sampleProduct with id := 2, currentStock := 5 }]).2.map
      (fun e => e.productId)) = [2] ∧
    ((bulkZeroStock "t1" (fun i => i == 1 || i == 2) 0
        [{ sampleProduct with
             id := 1
             currentStock := 0
             previousStock := 7 },
         { sampleProduct with id := 2, currentStock := 5 }]).1.head? ≠
      some { sampleProduct with
               id := 1
               currentStock := 0
               previousStock := 7 }) := by
  decide

/-- C9 (amended): the bulk zero-stock operation emits exactly one
ADJUSTMENT-to-0 ledger entry per selected product whose stock is
positive — selected products already at zero emit none — in catalog
order, and rewrites every selected product to stock `0` while also
overwriting its `previousStock` with the pre-zeroing stock (so a
selected product already at zero keeps stock `0` but may still see its
`previousStock` field rewritten); unselected products are untouched. -/
theorem bulk_zero_entries_exactly_positive_selected (ts : String)
    (sel : Nat → Bool) (txId : Nat) (cat : List Product) :
    (bulkZeroStock ts sel txId cat).1 =
      cat.map (fun p => if sel p.id then
        { p with previousStock := p.currentStock, currentStock := 0 }
      else p) ∧
    (bulkZeroStock ts sel txId cat).2.map (fun e => e.productId) =
      (cat.filter (fun p => sel p.id && decide (0 < p.currentStock))).map
        (fun p => p.id) := by
  induction cat generalizing txId with
  | nil => exact ⟨rfl, rfl⟩
  | cons p ps ih =>
    cases hsel : sel p.id with
    | false =>
      simp only [bulkZeroStock, hsel, Bool.false_eq_true, if_false,
        List.map_cons, List.filter_cons, Bool.false_and]
      exact ⟨congrArg _ (ih txId).1, (ih txId).2⟩
    | true =>
      by_cases hpos : 0 < p.currentStock
      · simp only [bulkZeroStock, hsel, if_true, if_pos hpos, List.map_cons,
          List.filter_cons, Bool.true_and, decide_eq_true hpos]
        exact ⟨congrArg _ (ih (txId + 1)).1,
          congrArg _ (ih (txId + 1)).2⟩
      · simp only [bulkZeroStock, hsel, if_true, if_neg hpos, List.map_cons,
          List.filter_cons, Bool.true_and,
          decide_eq_false hpos, Bool.and_false]
        exact ⟨congrArg _ (ih txId).1, (ih txId).2⟩

/-- C10: every ledger entry emitted by the bulk zero-stock operation
records quantity `0` (the absolute adjustment target), the fixed
bulk-adjustment note, type ADJUSTMENT, and the matched product's cost
as `unitCost`; and the entry does not depend on the product's current
stock at all, so the amount actually removed is recorded nowhere in
the entry. -/
theorem zero_stock_entry_fields (ts : String) (sel : Nat → Bool) (txId : Nat)
    (cat : List Product) :
    (∀ e ∈ (bulkZeroStock ts sel txId cat).2,
      e.quantity = 0 ∧ e.type = TxType.ajuste ∧
      e.notes = "Ajuste em massa: Zerar estoque" ∧
      ∃ p ∈ cat, sel p.id = true ∧ 0 < p.currentStock ∧
        e.productId = p.id ∧ e.unitCost = p.costPrice) ∧
    (∀ p : Product, ∀ q : ℚ, ∀ n : Nat,
      zeroStockEntry n ts { p with currentStock := q } =
        zeroStockEntry n ts p) := by
  refine ⟨?_, fun p q n => rfl⟩
  induction cat generalizing txId with
  | nil => intro e he; exact absurd he (by simp [bulkZeroStock])
  | cons p ps ih =>
    intro e he
    cases hsel : sel p.id with
    | false =>
      rw [bulkZeroStock] at he
      simp only [hsel, Bool.false_eq_true, if_false] at he
      obtain ⟨h1, h2, h3, p', hp', hrest⟩ := ih txId e he
      exact ⟨h1, h2, h3, p', List.mem_cons_of_mem _ hp', hrest⟩
    | true =>
      rw [bulkZeroStock] at he
      simp only [hsel, if_true] at he
      by_cases hpos : 0 < p.currentStock
      · rw [if_pos hpos] at he
        rcases List.mem_cons.1 he with hhead | htail
        · subst hhead
          exact ⟨rfl, rfl, rfl, p, List.mem_cons_self p ps, hsel, hpos,
            rfl, rfl⟩
        · obtain ⟨h1, h2, h3, p', hp', hrest⟩ := ih (txId + 1) e htail
          exact ⟨h1, h2, h3, p', List.mem_cons_of_mem _ hp', hrest⟩
      · rw [if_neg hpos] at he
        obtain ⟨h1, h2, h3, p', hp', hrest⟩ := ih txId e he
        exact ⟨h1, h2, h3, p', List.mem_cons_of_mem _ hp', hrest⟩

/-- Witness for C10 at a concrete one-product selection with positive
stock. -/
theorem zero_stock_entry_fields_witness :
    (zeroStockEntry 0 "t1"
      { sampleProduct with id := 3, currentStock := 5 }).quantity = 0 ∧
    (zeroStockEntry 0 "t1"
      { sampleProduct with id := 3, currentStock := 5 }).type =
      TxType.ajuste ∧
    (zeroStockEntry 0 "t1"
      { sampleProduct with id := 3, currentStock := 5 }).notes =
      "Ajuste em massa: Zerar estoque" ∧
    (zeroStockEntry 0 "t1"
      { sampleProduct with id := 3, currentStock := 5 }).unitCost =
      ({ sampleProduct with id := 3, currentStock := 5 } :
        Product).costPrice := by
  have hmem : zeroStockEntry 0 "t1"
      { sampleProduct with id := 3, currentStock := 5 } ∈
      (bulkZeroStock "t1" (fun i => i == 3) 0
        [{ sampleProduct with id := 3, currentStock := 5 }]).2 := by
    decide
  obtain ⟨h1, h2, h3, p', hp', hsel, hpos, hpid, hcost⟩ :=
    (zero_stock_entry_fields "t1" (fun i => i == 3) 0
      [{ sampleProduct with id := 3, currentStock := 5 }]).1 _ hmem
  have hp : p' = { sampleProduct with id := 3, currentStock := 5 } :=
    List.mem_singleton.1 hp'
  subst hp
  exact ⟨h1, h2, h3, hcost⟩

/-- Agreement between an import row and a product: every field the
merge at `src/unnamed/part_001` lines 1176-1183 overwrites already has
the row's value. -/
def agreesRow (r : Row) (p : Product) : Prop :=
  p.code = r.code ∧ p.name = r.name ∧ p.category = r.category ∧
  p.unit = r.unit ∧ p.currentStock = r.currentStock ∧
  p.minStock = r.minStock ∧ p.safetyStock = r.safetyStock ∧
  p.monthlyConsumption = r.monthlyConsumption ∧
  p.costPrice = r.costPrice ∧ p.salePrice = r.salePrice ∧
  p.image = r.image

/-- The first product of the catalog carrying the row's code (the one
`findIndex` selects) agrees with the row. -/
def FirstAgrees (r : Row) : List Product → Prop
  | [] => False
  | p :: ps => if p.code = r.code then agreesRow r p else FirstAgrees r ps

theorem mergeRow_of_agrees (ts : String) {r : Row} {p : Product}
    (h : agreesRow r p) : mergeRow ts r p = p := by
  obtain ⟨h1, h2, h3, h4, h5, h6, h7, h8, h9, h10, h11⟩ := h
  unfold mergeRow
  have hcc : ¬ (r.costPrice ≠ p.costPrice) := fun hne => hne h9.symm
  simp only [if_neg hcc]
  rw [← h1, ← h2, ← h3, ← h4, ← h5, ← h6, ← h7, ← h8, ← h9, ← h10, ← h11]

theorem agrees_mergeRow (ts : String) (r : Row) (p : Product) :
    agreesRow r (mergeRow ts r p) := by
  simp [agreesRow, mergeRow]

theorem agrees_rowProduct (n : Nat) (ts : String) (r : Row) :
    agreesRow r (rowProduct n ts r) := by
  simp [agreesRow, rowProduct]

theorem findAndMerge_of_firstAgrees (ts : String) {r : Row}
    {cat : List Product} (h : FirstAgrees r cat) :
    findAndMerge ts r cat = some cat := by
  induction cat with
  | nil => exact absurd h (by simp [FirstAgrees])
  | cons p ps ih =>
    unfold FirstAgrees at h
    unfold findAndMerge
    by_cases hc : p.code = r.code
    · rw [if_pos hc] at h ⊢
      rw [mergeRow_of_agrees ts h]
    · rw [if_neg hc] at h ⊢
      rw [ih h]

theorem firstAgrees_of_findAndMerge (ts : String) {r : Row}
    {cat cat' : List Product} (h : findAndMerge ts r cat = some cat') :
    FirstAgrees r cat' := by
  induction cat generalizing cat' with
  | nil => exact absurd h (by simp [findAndMerge])
  | cons p ps ih =>
    unfold findAndMerge at h
    by_cases hc : p.code = r.code
    · rw [if_pos hc] at h
      injection h with h'
      subst h'
      unfold FirstAgrees
      rw [if_pos (by simp [mergeRow])]
      exact agrees_mergeRow ts r p
    · rw [if_neg hc] at h
      cases hps : findAndMerge ts r ps with
      | none => rw [hps] at h; exact absurd h (by simp)
      | some ps' =>
        rw [hps] at h
        injection h with h'
        subst h'
        unfold FirstAgrees
        rw [if_neg hc]
        exact ih hps

theorem findAndMerge_none (ts : String) {r : Row} {cat : List Product}
    (h : findAndMerge ts r cat = none) : ∀ p ∈ cat, p.code ≠ r.code := by
  induction cat with
  | nil => intro p hp; exact absurd hp (by simp)
  | cons p ps ih =>
    unfold findAndMerge at h
    by_cases hc : p.code = r.code
    · rw [if_pos hc] at h
      exact absurd h (by simp)
    · rw [if_neg hc] at h
      intro p' hp'
      rcases List.mem_cons.1 hp' with hh | ht
      · subst hh; exact hc
      · cases hps : findAndMerge ts r ps with
        | none => exact ih hps p' ht
        | some ps' => rw [hps] at h; exact absurd h (by simp)

theorem firstAgrees_append_of_not_mem (n : Nat) (ts : String) {r : Row}
    {cat : List Product} (h : ∀ p ∈ cat, p.code ≠ r.code) :
    FirstAgrees r (cat ++ [rowProduct n ts r]) := by
  induction cat with
  | nil =>
    rw [List.nil_append]
    simp only [FirstAgrees]
    rw [if_pos (by simp [rowProduct])]
    exact agrees_rowProduct n ts r
  | cons p ps ih =>
    rw [List.cons_append]
    unfold FirstAgrees
    rw [if_neg (h p (List.mem_cons_self p ps))]
    exact ih (fun p' hp' => h p' (List.mem_cons_of_mem _ hp'))

theorem firstAgrees_append {r : Row} {cat : List Product}
    (l : List Product) (h : FirstAgrees r cat) :
    FirstAgrees r (cat ++ l) := by
  induction cat with
  | nil => exact absurd h (by simp [FirstAgrees])
  | cons p ps ih =>
    unfold FirstAgrees at h
    rw [List.cons_append]
    unfold FirstAgrees
    by_cases hc : p.code = r.code
    · rw [if_pos hc] at h ⊢
      exact h
    · rw [if_neg hc] at h ⊢
      exact ih h

theorem findAndMerge_preserves_firstAgrees (ts : String) {r r' : Row}
    {cat cat' : List Product} (hne : r'.code ≠ r.code)
    (h : findAndMerge ts r' cat = some cat') (hfa : FirstAgrees r cat) :
    FirstAgrees r cat' := by
  induction cat generalizing cat' with
  | nil => exact absurd h (by simp [findAndMerge])
  | cons p ps ih =>
    unfold findAndMerge at h
    unfold FirstAgrees at hfa
    by_cases hc : p.code = r'.code
    · rw [if_pos hc] at h
      injection h with h'
      subst h'
      have hpr : ¬ p.code = r.code := fun hh => hne (hc ▸ hh)
      rw [if_neg hpr] at hfa
      unfold FirstAgrees
      rw [if_neg (by simp only [mergeRow]; exact hne)]
      exact hfa
    · rw [if_neg hc] at h
      cases hps : findAndMerge ts r' ps with
      | none => rw [hps] at h; exact absurd h (by simp)
      | some ps' =>
        rw [hps] at h
        injection h with h'
        subst h'
        unfold FirstAgrees
        by_cases hpr : p.code = r.code
        · rw [if_pos hpr] at hfa ⊢
          exact hfa
        · rw [if_neg hpr] at hfa ⊢
          exact ih hps hfa

theorem handleBulkImport_cons (ts : String) (r : Row) (rows : List Row)
    (st : ImportState) :
    handleBulkImport ts (r :: rows) st =
      handleBulkImport ts rows (importRow ts st r) := rfl

theorem importRow_preserves_firstAgrees (ts : String) {r r' : Row}
    {st : ImportState} (hor : r'.code = "" ∨ r'.code ≠ r.code)
    (hfa : FirstAgrees r st.catalog) :
    FirstAgrees r (importRow ts st r').catalog := by
  unfold importRow
  by_cases hc : r'.code = ""
  · rw [if_pos hc]
    exact hfa
  · rw [if_neg hc]
    have hne : r'.code ≠ r.code := hor.resolve_left hc
    cases hfm : findAndMerge ts r' st.catalog with
    | some cat' =>
      exact findAndMerge_preserves_firstAgrees ts hne hfm hfa
    | none =>
      exact firstAgrees_append _ hfa

theorem foldl_preserves_firstAgrees (ts : String) {r : Row}
    {rows : List Row} {st : ImportState}
    (hor : ∀ r' ∈ rows, r'.code = "" ∨ r'.code ≠ r.code)
    (hfa : FirstAgrees r st.catalog) :
    FirstAgrees r (handleBulkImport ts rows st).catalog := by
  induction rows generalizing st with
  | nil => exact hfa
  | cons r0 rest ih =>
    rw [handleBulkImport_cons]
    exact ih (fun r' hr' => hor r' (List.mem_cons_of_mem _ hr'))
      (importRow_preserves_firstAgrees ts
        (hor r0 (List.mem_cons_self r0 rest)) hfa)

theorem importRow_establishes_firstAgrees (ts : String) {r : Row}
    (st : ImportState) (hne : r.code ≠ "") :
    FirstAgrees r (importRow ts st r).catalog := by
  unfold importRow
  rw [if_neg hne]
  cases hfm : findAndMerge ts r st.catalog with
  | some cat' => exact firstAgrees_of_findAndMerge ts hfm
  | none =>
    exact firstAgrees_append_of_not_mem st.nextId ts
      (findAndMerge_none ts hfm)

theorem run1_firstAgrees (ts : String) {rows : List Row}
    (st : ImportState)
    (hdist : List.Pairwise (fun a b => a.code = b.code → a.code = "") rows) :
    ∀ r ∈ rows, r.code ≠ "" →
      FirstAgrees r (handleBulkImport ts rows st).catalog := by
  induction rows generalizing st with
  | nil => intro r hr; exact absurd hr (by simp)
  | cons r0 rest ih =>
    intro r hr hne
    rcases List.mem_cons.1 hr with hh | ht
    · subst hh
      rw [handleBulkImport_cons]
      refine foldl_preserves_firstAgrees ts ?_
        (importRow_establishes_firstAgrees ts st hne)
      intro r' hr'
      by_cases hc : r'.code = ""
      · exact Or.inl hc
      · refine Or.inr fun heq => ?_
        exact hne ((List.pairwise_cons.1 hdist).1 r' hr' heq.symm)
    · rw [handleBulkImport_cons]
      exact ih (importRow ts st r0) (List.pairwise_cons.1 hdist).2 r ht hne

theorem handleBulkImport_noop (ts : String) (rows : List Row)
    (cat : List Product) (n u a : Nat)
    (h : ∀ r ∈ rows, r.code ≠ "" → FirstAgrees r cat) :
    handleBulkImport ts rows ⟨cat, n, u, a⟩ =
      ⟨cat, n, u + rows.countP (fun r => !(r.code == "")), a⟩ := by
  induction rows generalizing u with
  | nil => simp [handleBulkImport]
  | cons r0 rest ih =>
    rw [handleBulkImport_cons]
    by_cases hc : r0.code = ""
    · have hstep : importRow ts ⟨cat, n, u, a⟩ r0 = ⟨cat, n, u, a⟩ := by
        unfold importRow
        rw [if_pos hc]
      rw [hstep, ih u (fun r hr => h r (List.mem_cons_of_mem _ hr))]
      have hcount : (r0 :: rest).countP (fun r => !(r.code == "")) =
          rest.countP (fun r => !(r.code == "")) := by
        simp [List.countP_cons, hc]
      rw [hcount]
    · have hfa := h r0 (List.mem_cons_self r0 rest) hc
      have hfm := findAndMerge_of_firstAgrees ts hfa
      have hstep : importRow ts ⟨cat, n, u, a⟩ r0 = ⟨cat, n, u + 1, a⟩ := by
        unfold importRow
        rw [if_neg hc]
        show (match findAndMerge ts r0 cat with
          | some cat' =>
            { catalog := cat', nextId := n, updated := u + 1, added := a }
          | none =>
            { catalog := cat ++ [rowProduct n ts r0], nextId := n + 1,
              updated := u, added := a + 1 } : ImportState) = _
        rw [hfm]
      rw [hstep, ih (u + 1) (fun r hr => h r (List.mem_cons_of_mem _ hr))]
      have hcount : (r0 :: rest).countP (fun r => !(r.code == "")) =
          rest.countP (fun r => !(r.code == "")) + 1 := by
        simp [List.countP_cons, hc]
      rw [hcount]
      have : u + 1 + rest.countP (fun r => !(r.code == "")) =
          u + (rest.countP (fun r => !(r.code == "")) + 1) := by omega
      rw [this]

/-- Concrete import row with business code `A`, used to instantiate
the reconciler theorems. -/
def importRowA : Row :=
  ⟨"A", "Farinha", "Geral", "KG", 1, 0, 0, 0, 10, 12, ""⟩

/-- Concrete import row with business code `B`, used to instantiate
the reconciler theorems. -/
def importRowB : Row :=
  ⟨"B", "Leite", "Geral", "L", 2, 0, 0, 0, 8, 9, ""⟩

/-- C3 counterexample: the claim requires the second identical run to
report `updated: 0`, but `handleBulkImport` increments `updatedCount`
for every row whose code matches an existing product, whether or not
anything changes: importing one row into an empty catalog and
re-importing the identical row reports `updated = 1` on the second run
even though the catalog is left unchanged. -/
theorem second_import_reports_updated_one :
    (handleBulkImport "t2" [importRowA]
        ⟨(handleBulkImport "t1" [importRowA] ⟨[], 0, 0, 0⟩).catalog,
          (handleBulkImport "t1" [importRowA] ⟨[], 0, 0, 0⟩).nextId,
          0, 0⟩).updated = 1 ∧
    (handleBulkImport "t2" [importRowA]
        ⟨(handleBulkImport "t1" [importRowA] ⟨[], 0, 0, 0⟩).catalog,
          (handleBulkImport "t1" [importRowA] ⟨[], 0, 0, 0⟩).nextId,
          0, 0⟩).catalog =
      (handleBulkImport "t1" [importRowA] ⟨[], 0, 0, 0⟩).catalog := by
  decide

/-- C3 (amended): when no two rows share the same non-empty code,
re-running the reconciliation with the identical rows is a no-op on
the catalog — the catalog (and with it every cost history) and the
fresh-id counter are returned unchanged and nothing is added — but
the reported summary is `updated = number of rows with a resolvable
code`, not `updated: 0`, because every matched row is counted as
updated even when cost equality suppresses all writes. -/
theorem import_second_run_catalog_noop (ts1 ts2 : String) (rows : List Row)
    (cat : List Product) (n : Nat)
    (hdist : List.Pairwise (fun a b => a.code = b.code → a.code = "") rows) :
    handleBulkImport ts2 rows
        ⟨(handleBulkImport ts1 rows ⟨cat, n, 0, 0⟩).catalog,
          (handleBulkImport ts1 rows ⟨cat, n, 0, 0⟩).nextId, 0, 0⟩ =
      ⟨(handleBulkImport ts1 rows ⟨cat, n, 0, 0⟩).catalog,
        (handleBulkImport ts1 rows ⟨cat, n, 0, 0⟩).nextId,
        rows.countP (fun r => !(r.code == "")), 0⟩ := by
  have h := run1_firstAgrees ts1 (⟨cat, n, 0, 0⟩ : ImportState) hdist
  have hnoop := handleBulkImport_noop ts2 rows
    (handleBulkImport ts1 rows ⟨cat, n, 0, 0⟩).catalog
    (handleBulkImport ts1 rows ⟨cat, n, 0, 0⟩).nextId 0 0 h
  simpa using hnoop

/-- Witness for C3 (amended) at two concrete rows with distinct codes
over an empty catalog: the second run returns the first run's catalog
and id counter unchanged and reports `updated = 2`. -/
theorem import_second_run_catalog_noop_witness :
    handleBulkImport "t2" [importRowA, importRowB]
        ⟨(handleBulkImport "t1" [importRowA, importRowB]
            ⟨[], 0, 0, 0⟩).catalog,
          (handleBulkImport "t1" [importRowA, importRowB]
            ⟨[], 0, 0, 0⟩).nextId, 0, 0⟩ =
      ⟨(handleBulkImport "t1" [importRowA, importRowB]
          ⟨[], 0, 0, 0⟩).catalog,
        (handleBulkImport "t1" [importRowA, importRowB]
          ⟨[], 0, 0, 0⟩).nextId, 2, 0⟩ := by
  have h := import_second_run_catalog_noop "t1" "t2" [importRowA, importRowB]
    [] 0 (by decide)
  have hc : [importRowA, importRowB].countP (fun r => !(r.code == "")) = 2 := by
    decide
  rw [hc] at h
  exact h
